import Mathlib

/-!
Verification of the image-gallery manager against its specification.

The repository has two source files implementing the same application:
`src/next.js` and `src/unnamed/part_000`.  Both contain a Collection
Store (react-query cache of image records with an optimistic delete
mutation) and a per-image annotation hook; the variants differ in
payload validation, retry policy, annotation geometry, id generation
and persistence.  Definitions below are translated from those sources;
where a platform collaborator appears (axios transport, JSON.parse /
JSON.stringify, crypto.randomUUID, Date.now with Math.random) it is
modelled by its interface, and the comment on the definition says so.

JS numbers are modelled as `Int`: every numeric value manipulated by
the translated code (server ids, pixel geometry, retry counts) is
integral, and no claim depends on float rounding.
-/

/- ===== A model of JSON.stringify / JSON.parse on the payloads the
   annotation hook stores (arrays of annotation objects).  The printer
   mirrors the exact output of JSON.stringify on the object literals the
   source builds (fixed key order id, x, y, width, height, color); the
   parser accepts exactly that grammar and returns `none` where
   JSON.parse would throw (truncated or malformed text). ===== -/

/-- Decimal digit characters for number printing. -/
def digitChar (d : Nat) : Char :=
  match d with
  | 0 => '0'
  | 1 => '1'
  | 2 => '2'
  | 3 => '3'
  | 4 => '4'
  | 5 => '5'
  | 6 => '6'
  | 7 => '7'
  | 8 => '8'
  | _ => '9'

/-- Is `c` one of '0'..'9'. -/
def isDigitCh (c : Char) : Bool := decide (48 ≤ c.toNat ∧ c.toNat ≤ 57)

/-- Numeric value of a digit character. -/
def digitVal (c : Char) : Nat := c.toNat - 48

/-- Decimal digits of `n`, most significant first; `fuel` bounds the
recursion (any `fuel > n` gives the exact digits). -/
def natDigitsAux : Nat → Nat → List Char
  | 0, _ => []
  | fuel + 1, n =>
    if n < 10 then [digitChar n]
    else natDigitsAux fuel (n / 10) ++ [digitChar (n % 10)]

/-- Decimal digits of `n`, most significant first. -/
def natDigits (n : Nat) : List Char := natDigitsAux (n + 1) n

/-- Character list printed for an integer, as JSON.stringify prints it. -/
def intChars (n : Int) : List Char :=
  if n < 0 then '-' :: natDigits n.natAbs else natDigits n.toNat

/-- Consume a maximal run of digit characters, folding them onto `acc`. -/
def readDigits (acc : Nat) : List Char → Nat × List Char
  | [] => (acc, [])
  | c :: cs =>
    if isDigitCh c then readDigits (acc * 10 + digitVal c) cs else (acc, c :: cs)

/-- Value accumulated by `readDigits` over the digits of `n`, starting
from `acc` (same fuel discipline as `natDigitsAux`). -/
def consumeAux : Nat → Nat → Nat → Nat
  | 0, acc, _ => acc
  | fuel + 1, acc, n =>
    if n < 10 then acc * 10 + n
    else consumeAux fuel acc (n / 10) * 10 + n % 10

/-- Read a nonempty digit run as a natural number. -/
def readNat (cs : List Char) : Option (Nat × List Char) :=
  match cs with
  | [] => none
  | c :: _ => if isDigitCh c then some (readDigits 0 cs) else none

/-- Read an optionally negated digit run as an integer. -/
def readInt (cs : List Char) : Option (Int × List Char) :=
  match cs with
  | [] => none
  | c :: rest =>
    if c = '-' then
      match readNat rest with
      | none => none
      | some (m, r) => some (-(m : Int), r)
    else
      match readNat (c :: rest) with
      | none => none
      | some (m, r) => some ((m : Int), r)

/-- Does the input not start with a digit (the condition under which a
digit run just before it reads back unchanged). -/
def noDigitHead : List Char → Bool
  | [] => true
  | c :: _ => !isDigitCh c

theorem digitChar_isDigit : ∀ d < 10, isDigitCh (digitChar d) = true := by decide

theorem digitVal_digitChar : ∀ d < 10, digitVal (digitChar d) = d := by decide

theorem natDigitsAux_digits :
    ∀ fuel n, n < fuel → ∀ c ∈ natDigitsAux fuel n, isDigitCh c = true := by
  intro fuel
  induction fuel with
  | zero => intro n hn; omega
  | succ fuel ih =>
    intro n hn c hc
    by_cases h : n < 10
    · simp only [natDigitsAux, if_pos h, List.mem_singleton] at hc
      exact hc ▸ digitChar_isDigit n h
    · simp only [natDigitsAux, if_neg h, List.mem_append, List.mem_singleton] at hc
      rcases hc with hc | hc
      · exact ih (n / 10) (by omega) c hc
      · exact hc ▸ digitChar_isDigit (n % 10) (Nat.mod_lt n (by omega))

theorem natDigitsAux_ne_nil :
    ∀ fuel n, n < fuel → natDigitsAux fuel n ≠ [] := by
  intro fuel
  induction fuel with
  | zero => intro n hn; omega
  | succ fuel ih =>
    intro n hn
    by_cases h : n < 10
    · simp [natDigitsAux, if_pos h]
    · simp only [natDigitsAux, if_neg h]
      exact List.append_ne_nil_of_right_ne_nil _ (by simp)

theorem readDigits_natDigitsAux :
    ∀ fuel n acc rest, n < fuel →
      readDigits acc (natDigitsAux fuel n ++ rest) =
        readDigits (consumeAux fuel acc n) rest := by
  intro fuel
  induction fuel with
  | zero => intro n acc rest hn; omega
  | succ fuel ih =>
    intro n acc rest hn
    by_cases h : n < 10
    · simp only [natDigitsAux, if_pos h, List.cons_append, List.nil_append,
        readDigits, digitChar_isDigit n h, if_true, consumeAux,
        digitVal_digitChar n h]
    · simp only [natDigitsAux, if_neg h, List.append_assoc, List.cons_append,
        List.nil_append, consumeAux]
      rw [ih (n / 10) acc (digitChar (n % 10) :: rest) (by omega)]
      simp only [readDigits, digitChar_isDigit (n % 10) (Nat.mod_lt n (by omega)),
        if_true, digitVal_digitChar (n % 10) (Nat.mod_lt n (by omega))]

theorem consumeAux_zero : ∀ fuel n, n < fuel → consumeAux fuel 0 n = n := by
  intro fuel
  induction fuel with
  | zero => intro n hn; omega
  | succ fuel ih =>
    intro n hn
    by_cases h : n < 10
    · simp [consumeAux, if_pos h]
    · simp only [consumeAux, if_neg h, ih (n / 10) (by omega)]
      omega

theorem readDigits_stop (acc : Nat) (rest : List Char)
    (h : noDigitHead rest = true) : readDigits acc rest = (acc, rest) := by
  cases rest with
  | nil => rfl
  | cons c cs =>
    simp only [noDigitHead, Bool.not_eq_true'] at h
    simp [readDigits, h]

theorem readNat_natDigits (n : Nat) (rest : List Char)
    (h : noDigitHead rest = true) :
    readNat (natDigits n ++ rest) = some (n, rest) := by
  have hne := natDigitsAux_ne_nil (n + 1) n (Nat.lt_succ_self n)
  cases hd : natDigits n with
  | nil => exact absurd hd hne
  | cons c t =>
    have hcmem : c ∈ natDigits n := by rw [hd]; exact List.mem_cons_self c t
    have hcdig : isDigitCh c = true :=
      natDigitsAux_digits (n + 1) n (Nat.lt_succ_self n) c hcmem
    simp only [List.cons_append, readNat, hcdig, if_true]
    rw [← List.cons_append, ← hd, natDigits,
      readDigits_natDigitsAux (n + 1) n 0 rest (Nat.lt_succ_self n),
      consumeAux_zero (n + 1) n (Nat.lt_succ_self n),
      readDigits_stop n rest h]

theorem isDigitCh_ne_dash (c : Char) (h : isDigitCh c = true) : ¬ c = '-' := by
  intro he
  rw [he] at h
  exact absurd h (by decide)

theorem readInt_intChars (n : Int) (rest : List Char)
    (h : noDigitHead rest = true) :
    readInt (intChars n ++ rest) = some (n, rest) := by
  by_cases hn : n < 0
  · simp only [intChars, if_pos hn, List.cons_append]
    have hna : -((n.natAbs : Int)) = n := by omega
    simp only [readInt, if_pos rfl, if_true, readNat_natDigits n.natAbs rest h, hna]
  · simp only [intChars, if_neg hn]
    have hne := natDigitsAux_ne_nil (n.toNat + 1) n.toNat (Nat.lt_succ_self _)
    have hread := readNat_natDigits n.toNat rest h
    cases hd : natDigits n.toNat with
    | nil => exact absurd hd hne
    | cons c t =>
      rw [hd] at hread
      have hcmem : c ∈ natDigits n.toNat := by rw [hd]; exact List.mem_cons_self c t
      have hcdig : isDigitCh c = true :=
        natDigitsAux_digits _ _ (Nat.lt_succ_self _) c hcmem
      simp only [List.cons_append, readInt, if_neg (isDigitCh_ne_dash c hcdig)]
      simp only [List.cons_append] at hread
      rw [hread]
      simp [Int.toNat_of_nonneg (Int.not_lt.mp hn)]

/-- Escape one character as the model printer does: JSON.stringify must
escape a double quote and a backslash inside a string literal; other
characters are printed verbatim.  (JSON.stringify additionally escapes
control characters; the ids and colors this program stores never contain
any, and the parser below accepts verbatim characters, so the model
round-trips every string.) -/
def escChar (c : Char) : List Char :=
  if c = '"' ∨ c = '\\' then ['\\', c] else [c]

/-- Escape a character list. -/
def escChars : List Char → List Char
  | [] => []
  | c :: cs => escChar c ++ escChars cs

/-- The printed form of a JSON string literal. -/
def strLit (s : String) : List Char := '"' :: (escChars s.data ++ ['"'])

/-- Read the body of a string literal (opening quote already consumed):
stop at an unescaped quote, take the character after a backslash
verbatim, fail (as JSON.parse does, by throwing) on unterminated input. -/
def readStrChars : List Char → Option (List Char × List Char)
  | [] => none
  | c :: rest =>
    if c = '"' then some ([], rest)
    else if c = '\\' then
      match rest with
      | [] => none
      | e :: rest2 =>
        match readStrChars rest2 with
        | none => none
        | some (s, r) => some (e :: s, r)
    else
      match readStrChars rest with
      | none => none
      | some (s, r) => some (c :: s, r)

/-- Read a whole string literal including its opening quote. -/
def readStrLit (cs : List Char) : Option (String × List Char) :=
  match cs with
  | [] => none
  | c :: rest =>
    if c = '"' then
      match readStrChars rest with
      | none => none
      | some (s, r) => some (String.mk s, r)
    else none

theorem readStrChars_escChars (s : List Char) (rest : List Char) :
    readStrChars (escChars s ++ '"' :: rest) = some (s, rest) := by
  induction s with
  | nil =>
    show readStrChars ('"' :: rest) = some ([], rest)
    rw [readStrChars.eq_def]
    simp
  | cons c cs ih =>
    by_cases h : c = '"' ∨ c = '\\'
    · have hc : escChar c = ['\\', c] := by rw [escChar, if_pos h]
      simp only [escChars, hc, List.cons_append, List.append_assoc, List.nil_append]
      rw [readStrChars.eq_def]
      simp [ih, (by decide : ('\\' : Char) ≠ '"')]
    · have hc : escChar c = [c] := by rw [escChar, if_neg h]
      push_neg at h
      simp only [escChars, hc, List.cons_append, List.append_assoc, List.nil_append]
      rw [readStrChars.eq_def]
      simp [h.1, h.2, ih]

theorem readStrLit_strLit (s : String) (rest : List Char) :
    readStrLit (strLit s ++ rest) = some (s, rest) := by
  simp only [strLit, List.cons_append, List.append_assoc, List.cons_append,
    List.nil_append]
  rw [readStrLit.eq_def]
  simp [readStrChars_escChars]

/-- Consume an exact literal character sequence. -/
def expectChars (pat : List Char) (cs : List Char) : Option (List Char) :=
  match pat, cs with
  | [], _ => some cs
  | _ :: _, [] => none
  | p :: ps, c :: rest => if c = p then expectChars ps rest else none

theorem expectChars_append (pat cs : List Char) :
    expectChars pat (pat ++ cs) = some cs := by
  induction pat with
  | nil => rfl
  | cons p ps ih => simp [expectChars, ih]

/- ===== The annotation data model of src/next.js (interface
   `Annotation`: id, x, y, width, height, color).  The Lean name is
   shortened to `Ann`; fields keep the source names. ===== -/

/-- An annotation record as in src/next.js lines 72-79. -/
structure Ann where
  id : String
  x : Int
  y : Int
  width : Int
  height : Int
  color : String
deriving DecidableEq, Repr

/-- Printed object-key patterns of the stored payload.  JSON.stringify
keeps the key order of the object literal built in the add callback:
id, x, y, width, height, color. -/
def patIdOpen : List Char := '\x7b' :: (strLit "id" ++ [':'])

/-- Key pattern before the x value. -/
def patX : List Char := ',' :: (strLit "x" ++ [':'])

/-- Key pattern before the y value. -/
def patY : List Char := ',' :: (strLit "y" ++ [':'])

/-- Key pattern before the width value. -/
def patW : List Char := ',' :: (strLit "width" ++ [':'])

/-- Key pattern before the height value. -/
def patH : List Char := ',' :: (strLit "height" ++ [':'])

/-- Key pattern before the color value. -/
def patC : List Char := ',' :: (strLit "color" ++ [':'])

/-- Closing brace of the object. -/
def patClose : List Char := ['\x7d']

/-- The characters JSON.stringify prints for one annotation object. -/
def annChars (a : Ann) : List Char :=
  patIdOpen ++ (strLit a.id ++ (patX ++ (intChars a.x ++ (patY ++ (intChars a.y ++
    (patW ++ (intChars a.width ++ (patH ++ (intChars a.height ++
      (patC ++ (strLit a.color ++ patClose)))))))))))

/-- Parse one annotation object in exactly the printed grammar. -/
def readAnn (cs : List Char) : Option (Ann × List Char) :=
  (expectChars patIdOpen cs).bind fun cs1 =>
  (readStrLit cs1).bind fun p1 =>
  (expectChars patX p1.2).bind fun cs2 =>
  (readInt cs2).bind fun p2 =>
  (expectChars patY p2.2).bind fun cs3 =>
  (readInt cs3).bind fun p3 =>
  (expectChars patW p3.2).bind fun cs4 =>
  (readInt cs4).bind fun p4 =>
  (expectChars patH p4.2).bind fun cs5 =>
  (readInt cs5).bind fun p5 =>
  (expectChars patC p5.2).bind fun cs6 =>
  (readStrLit cs6).bind fun p6 =>
  (expectChars patClose p6.2).bind fun cs7 =>
  some ({ id := p1.1, x := p2.1, y := p3.1, width := p4.1, height := p5.1,
          color := p6.1 }, cs7)

theorem noDigitHead_patY (X : List Char) : noDigitHead (patY ++ X) = true := rfl

theorem noDigitHead_patW (X : List Char) : noDigitHead (patW ++ X) = true := rfl

theorem noDigitHead_patH (X : List Char) : noDigitHead (patH ++ X) = true := rfl

theorem noDigitHead_patC (X : List Char) : noDigitHead (patC ++ X) = true := rfl

theorem readAnn_annChars (a : Ann) (rest : List Char) :
    readAnn (annChars a ++ rest) = some (a, rest) := by
  simp only [annChars, List.append_assoc, readAnn, expectChars_append,
    Option.some_bind, readStrLit_strLit, readInt_intChars, noDigitHead_patY,
    noDigitHead_patW, noDigitHead_patH, noDigitHead_patC]

/-- Printed characters of the elements of an annotation array,
comma-separated (the body between the brackets). -/
def annsElems : List Ann → List Char
  | [] => []
  | a :: rest =>
    match rest with
    | [] => annChars a
    | _ :: _ => annChars a ++ (',' :: annsElems rest)

/-- Parse the inside of an array of annotation objects after the opening
bracket; `fuel` bounds recursion (any fuel above the element count is
enough). -/
def readAnns : Nat → List Char → Option (List Ann × List Char)
  | 0, _ => none
  | _ + 1, [] => none
  | fuel + 1, c :: rest =>
    if c = ']' then some ([], rest)
    else
      (readAnn (c :: rest)).bind fun p =>
      match p.2 with
      | ',' :: cs2 => (readAnns fuel cs2).map fun q => (p.1 :: q.1, q.2)
      | ']' :: cs2 => some ([p.1], cs2)
      | _ => none

/-- The string JSON.stringify produces for an annotation array. -/
def stringifyAnns (l : List Ann) : String :=
  String.mk ('[' :: (annsElems l ++ [']']))

/-- Model of JSON.parse composed with the untyped use of the result as
an annotation array: succeeds exactly on the payloads JSON.stringify
writes for such arrays, and is `none` (JSON.parse throws) on truncated
or otherwise malformed text. -/
def parseAnnText (s : String) : Option (List Ann) :=
  match s.data with
  | [] => none
  | c :: rest =>
    if c = '[' then
      match readAnns (rest.length + 1) rest with
      | some (l, []) => some l
      | _ => none
    else none

theorem annChars_cons (a : Ann) : ∃ t, annChars a = '\x7b' :: t := ⟨_, rfl⟩

theorem readAnns_elems :
    ∀ (l : List Ann) (fuel : Nat) (rest : List Char), l.length < fuel →
      readAnns fuel (annsElems l ++ (']' :: rest)) = some (l, rest) := by
  intro l
  induction l with
  | nil =>
    intro fuel rest hf
    cases fuel with
    | zero => omega
    | succ f =>
      show readAnns (f + 1) (']' :: rest) = some ([], rest)
      rw [readAnns.eq_def]
      simp
  | cons a tl ih =>
    intro fuel rest hf
    cases fuel with
    | zero => omega
    | succ f =>
      obtain ⟨t, ht⟩ := annChars_cons a
      cases tl with
      | nil =>
        show readAnns (f + 1) (annChars a ++ (']' :: rest)) = some ([a], rest)
        rw [ht, List.cons_append, readAnns.eq_def]
        simp only [if_neg (by decide : ¬ ('\x7b' : Char) = ']')]
        rw [← List.cons_append, ← ht, readAnn_annChars a (']' :: rest)]
        simp
      | cons b tl2 =>
        show readAnns (f + 1)
            ((annChars a ++ (',' :: annsElems (b :: tl2))) ++ (']' :: rest)) =
          some (a :: b :: tl2, rest)
        rw [List.append_assoc, List.cons_append, ht, List.cons_append,
          readAnns.eq_def]
        simp only [if_neg (by decide : ¬ ('\x7b' : Char) = ']')]
        rw [← List.cons_append, ← ht,
          readAnn_annChars a (',' :: (annsElems (b :: tl2) ++ (']' :: rest)))]
        simp only [Option.some_bind]
        rw [ih f rest (by simpa using Nat.lt_of_succ_lt_succ hf)]
        rfl

theorem length_le_annsElems : ∀ l : List Ann, l.length ≤ (annsElems l).length := by
  intro l
  induction l with
  | nil => simp [annsElems]
  | cons a tl ih =>
    obtain ⟨t, ht⟩ := annChars_cons a
    cases tl with
    | nil => simp [annsElems, ht]
    | cons b tl2 =>
      have hx : annsElems (a :: b :: tl2) = annChars a ++ (',' :: annsElems (b :: tl2)) := rfl
      rw [hx, List.length_append, ht]
      simp only [List.length_cons] at ih ⊢
      omega

theorem parseAnnText_stringifyAnns (l : List Ann) :
    parseAnnText (stringifyAnns l) = some l := by
  have hlen : l.length < (annsElems l ++ (']' :: ([] : List Char))).length + 1 := by
    have h1 := length_le_annsElems l
    simp only [List.length_append, List.length_cons, List.length_nil]
    omega
  have hx : parseAnnText (stringifyAnns l) =
      match readAnns ((annsElems l ++ (']' :: [])).length + 1)
          (annsElems l ++ (']' :: [])) with
      | some (r, []) => some r
      | _ => none := rfl
  rw [hx, readAnns_elems l _ [] hlen]

/- ===== The Annotation Store of src/next.js (useAnnotations, lines
   119-150): React state `annotations` plus localStorage under the key
   derived from the image id.  The load effect (lines 122-125) reads the
   stored payload through JSON.parse; the persist effect (lines 127-129)
   writes JSON.stringify(annotations) after every state change, so every
   mutation completes with a write-back of the full set.  The id drawn by
   `Date.now()-Math.random()` is an external source; it is modelled by an
   oracle `gen : Nat → String` indexed by the number of adds performed so
   far in the process. ===== -/

/-- Hook state: the in-memory list, the oracle index, and the value
currently stored under the image's localStorage key. -/
structure AnnStore where
  anns : List Ann
  nonce : Nat
  stored : Option String
deriving DecidableEq

/-- The persist effect: write `JSON.stringify(annotations)`. -/
def persistAnns (l : List Ann) : Option String := some (stringifyAnns l)

/-- Fresh state: `useState<Annotation[]>([])`, nothing stored yet. -/
def annStoreInit : AnnStore := { anns := [], nonce := 0, stored := none }

/-- The addAnnotation callback of src/next.js (lines 131-143): append a
record with a fresh id and constant geometry x=60, y=60, width=160,
height=100 and the passed color; the persist effect then stores the new
list. -/
def addAnn (gen : Nat → String) (color : String) (s : AnnStore) : AnnStore :=
  let l := s.anns ++ [{ id := gen s.nonce, x := 60, y := 60, width := 160,
                        height := 100, color := color }]
  { anns := l, nonce := s.nonce + 1, stored := persistAnns l }

/-- The removeAnnotation callback (lines 145-147): filter the id out;
the persist effect then stores the new list. -/
def removeAnn (id : String) (s : AnnStore) : AnnStore :=
  let l := s.anns.filter fun a => a.id ≠ id
  { s with anns := l, stored := persistAnns l }

/-- The onDragEnd updater of the canvas (src/next.js lines 212-220),
`move(id, nx, ny)`: update x and y of the record whose id matches,
keep everything else; the persist effect then stores the new list. -/
def moveAnn (id : String) (nx ny : Int) (s : AnnStore) : AnnStore :=
  let l := s.anns.map fun p => if p.id = id then { p with x := nx, y := ny } else p
  { s with anns := l, stored := persistAnns l }

/-- The load effect of src/next.js (lines 122-125): when nothing is
stored the state keeps its initial `[]`; otherwise the result of
`JSON.parse(saved)` becomes the state.  The effect has no try/catch, so
when JSON.parse throws (malformed payload) the exception propagates out
of the effect; that is the `Except.error` case. -/
def loadFor (stored : Option String) : Except String (List Ann) :=
  match stored with
  | none => Except.ok []
  | some s =>
    match parseAnnText s with
    | none => Except.error "SyntaxError: Unexpected end of JSON input"
    | some l => Except.ok l

/-- One Annotation Store mutation. -/
inductive AnnOp where
  | add (color : String)
  | move (id : String) (nx ny : Int)
  | remove (id : String)
deriving DecidableEq

/-- Apply one mutation to the hook state. -/
def applyOp (gen : Nat → String) (s : AnnStore) : AnnOp → AnnStore
  | AnnOp.add color => addAnn gen color s
  | AnnOp.move id nx ny => moveAnn id nx ny s
  | AnnOp.remove id => removeAnn id s

/-- Apply a sequence of mutations, oldest first. -/
def applyOps (gen : Nat → String) (ops : List AnnOp) (s : AnnStore) : AnnStore :=
  ops.foldl (applyOp gen) s

theorem applyOp_stored (gen : Nat → String) (s : AnnStore) (op : AnnOp) :
    (applyOp gen s op).stored = persistAnns (applyOp gen s op).anns := by
  cases op <;> rfl

theorem applyOps_stored (gen : Nat → String) (ops : List AnnOp) :
    ∀ s : AnnStore, ops ≠ [] →
      (applyOps gen ops s).stored = persistAnns (applyOps gen ops s).anns := by
  induction ops with
  | nil => intro s h; exact absurd rfl h
  | cons op tl ih =>
    intro s _
    cases tl with
    | nil => exact applyOp_stored gen s op
    | cons op2 tl2 =>
      show (applyOps gen (op2 :: tl2) (applyOp gen s op)).stored =
        persistAnns (applyOps gen (op2 :: tl2) (applyOp gen s op)).anns
      exact ih (applyOp gen s op) (by simp)

theorem loadFor_persistAnns (l : List Ann) : loadFor (persistAnns l) = Except.ok l := by
  rw [persistAnns, loadFor, parseAnnText_stringifyAnns]

/- ===== The annotation hook of src/unnamed/part_000 (useAnnotations,
   lines 143-166): no persistence, no color field; a ref counter is
   pre-incremented on every add and offsets the geometry by counter*6;
   ids come from crypto.randomUUID (an external draw, modelled by an
   oracle indexed by the number of adds performed). ===== -/

/-- An annotation record as in part_000 lines 69-75 (no color field). -/
structure AnnP0 where
  id : String
  x : Int
  y : Int
  width : Int
  height : Int
deriving DecidableEq

/-- State of part_000's hook: the list plus the ref counter. -/
structure AnnStoreP0 where
  anns : List AnnP0
  counter : Nat
deriving DecidableEq

/-- Fresh state: `useState<Annotation[]>([])`, `useRef(0)`. -/
def annStoreP0Init : AnnStoreP0 := { anns := [], counter := 0 }

/-- part_000's addAnnotation (lines 147-163): `counterRef.current += 1`,
`offset = counterRef.current * 6`, push a record at (50+offset, 50+offset)
sized 160 by 100 with a fresh uuid. -/
def addAnnP0 (gen : Nat → String) (s : AnnStoreP0) : AnnStoreP0 :=
  let c := s.counter + 1
  let offset : Int := (c : Int) * 6
  { anns := s.anns ++ [{ id := gen s.counter, x := 50 + offset, y := 50 + offset,
                         width := 160, height := 100 }],
    counter := c }

/-- N successive adds from the fresh state. -/
def addsP0 (gen : Nat → String) : Nat → AnnStoreP0
  | 0 => annStoreP0Init
  | n + 1 => addAnnP0 gen (addsP0 gen n)

/-- The record the n-th add (0-based) produces in part_000. -/
def annP0At (gen : Nat → String) (n : Nat) : AnnP0 :=
  { id := gen n, x := 50 + ((n : Int) + 1) * 6, y := 50 + ((n : Int) + 1) * 6,
    width := 160, height := 100 }

theorem addsP0_eq (gen : Nat → String) (N : Nat) :
    addsP0 gen N = { anns := (List.range N).map (annP0At gen), counter := N } := by
  induction N with
  | zero => rfl
  | succ n ih =>
    rw [addsP0, ih, addAnnP0]
    simp only [List.range_succ, List.map_append, List.map_cons, List.map_nil,
      annP0At, AnnStoreP0.mk.injEq, List.append_cancel_left_eq, List.cons.injEq,
      AnnP0.mk.injEq, and_true, true_and]
    push_cast
    omega

/-- A sequence of adds in src/next.js (one color argument per click). -/
def addsNext (gen : Nat → String) (colors : List String) (s : AnnStore) : AnnStore :=
  colors.foldl (fun t c => addAnn gen c t) s

theorem addsNext_map_id (gen : Nat → String) (colors : List String) :
    ∀ s : AnnStore, (addsNext gen colors s).anns.map Ann.id =
      s.anns.map Ann.id ++ (List.range' s.nonce colors.length).map gen := by
  induction colors with
  | nil => intro s; simp [addsNext]
  | cons c cs ih =>
    intro s
    show (addsNext gen cs (addAnn gen c s)).anns.map Ann.id = _
    rw [ih (addAnn gen c s)]
    simp only [addAnn, List.map_append, List.map_cons, List.map_nil,
      List.length_cons, List.range'_succ]
    simp [List.append_assoc]

theorem addsNext_map_pos (gen : Nat → String) (colors : List String) :
    ∀ s : AnnStore, (addsNext gen colors s).anns.map (fun a => (a.x, a.y)) =
      s.anns.map (fun a => (a.x, a.y)) ++
        colors.map (fun _ => ((60 : Int), (60 : Int))) := by
  induction colors with
  | nil => intro s; simp [addsNext]
  | cons c cs ih =>
    intro s
    show (addsNext gen cs (addAnn gen c s)).anns.map _ = _
    rw [ih (addAnn gen c s)]
    simp [addAnn, List.append_assoc]

/- ===== The Collection Store: the react-query cache entry under the key
   ["images"] is `Option (List ImageItem)` (undefined before any fetch),
   and the delete mutation's callbacks from useImages translate as
   follows.  onMutate: snapshot the cache, then setQueryData with the
   filter updater.  onError: restore the snapshot when it is defined (in
   JS, `if (ctx?.prev)` / `if (ctx?.previous)`; an array — even an empty
   one — is truthy, undefined is falsy).  onSettled: invalidateQueries on
   ["images"], which triggers exactly one refetch of the active images
   query, for success and failure alike. ===== -/

/-- An image record (interface ImageItem in both files). -/
structure ImageItem where
  id : Int
  title : String
  url : String
deriving DecidableEq

/-- onMutate of src/next.js (lines 102-109): snapshot, then the updater
`old => old?.filter(i => i.id !== id)`.  When the cache is undefined the
updater returns undefined and react-query leaves the entry unchanged.
Returns (cache after the optimistic removal, snapshot). -/
def onMutateNext (id : Int) (cache : Option (List ImageItem)) :
    Option (List ImageItem) × Option (List ImageItem) :=
  match cache with
  | none => (none, none)
  | some old => (some (old.filter fun i => i.id ≠ id), some old)

/-- onMutate of part_000 (lines 113-123): snapshot, then the updater
`old => old ? old.filter(img => img.id !== id) : []` (an empty array is
truthy, so only undefined falls to `[]`). -/
def onMutateP0 (id : Int) (cache : Option (List ImageItem)) :
    Option (List ImageItem) × Option (List ImageItem) :=
  match cache with
  | none => (some [], none)
  | some old => (some (old.filter fun i => i.id ≠ id), some old)

/-- onError of both variants: restore the snapshot when it is defined
(`if (ctx?.prev) queryClient.setQueryData(['images'], ctx.prev)`). -/
def rollbackOnError (prev : Option (List ImageItem))
    (cache : Option (List ImageItem)) : Option (List ImageItem) :=
  match prev with
  | some p => some p
  | none => cache

/-- Outcome of the durable DELETE request. -/
inductive MutOutcome where
  | success
  | failure
deriving DecidableEq

/-- Result of one settled delete mutation: the cache and the number of
refetches of the images list triggered at settlement.  onSettled runs
`invalidateQueries(['images'])` unconditionally, which refetches the
active images query once. -/
structure DeleteResult where
  cache : Option (List ImageItem)
  refetches : Nat
deriving DecidableEq

/-- One full run of the src/next.js delete mutation: onMutate, then on
failure onError, then onSettled. -/
def runDeleteNext (id : Int) (outcome : MutOutcome)
    (cache0 : Option (List ImageItem)) : DeleteResult :=
  let ctx := onMutateNext id cache0
  match outcome with
  | MutOutcome.success => { cache := ctx.1, refetches := 1 }
  | MutOutcome.failure => { cache := rollbackOnError ctx.2 ctx.1, refetches := 1 }

/-- One full run of the part_000 delete mutation. -/
def runDeleteP0 (id : Int) (outcome : MutOutcome)
    (cache0 : Option (List ImageItem)) : DeleteResult :=
  let ctx := onMutateP0 id cache0
  match outcome with
  | MutOutcome.success => { cache := ctx.1, refetches := 1 }
  | MutOutcome.failure => { cache := rollbackOnError ctx.2 ctx.1, refetches := 1 }

/-- A sequence of failing deletes run to settlement one after another
(src/next.js variant). -/
def failingDeletesNext (ids : List Int) (cache0 : Option (List ImageItem)) :
    Option (List ImageItem) :=
  ids.foldl (fun c id => (runDeleteNext id MutOutcome.failure c).cache) cache0

/-- A sequence of failing deletes run to settlement one after another
(part_000 variant). -/
def failingDeletesP0 (ids : List Int) (cache0 : Option (List ImageItem)) :
    Option (List ImageItem) :=
  ids.foldl (fun c id => (runDeleteP0 id MutOutcome.failure c).cache) cache0

/-- Two deletes of the same id whose optimistic phases both run before
either settles, both failing (src/next.js): nothing in useMutation keys
in-flight mutations by id, so this interleaving is allowed by the code. -/
def interleavedFailingDeletesNext (id : Int)
    (cache0 : Option (List ImageItem)) : Option (List ImageItem) :=
  let ctx1 := onMutateNext id cache0
  let ctx2 := onMutateNext id ctx1.1
  let afterErr1 := rollbackOnError ctx1.2 ctx2.1
  rollbackOnError ctx2.2 afterErr1

/-- The same interleaving in the part_000 variant. -/
def interleavedFailingDeletesP0 (id : Int)
    (cache0 : Option (List ImageItem)) : Option (List ImageItem) :=
  let ctx1 := onMutateP0 id cache0
  let ctx2 := onMutateP0 id ctx1.1
  let afterErr1 := rollbackOnError ctx1.2 ctx2.1
  rollbackOnError ctx2.2 afterErr1

/- ===== The images fetch and its validation.  axios parses the response
   body; the parsed JS value is modelled by `JsValue`.  A transport or
   timeout failure raises an AxiosError; the array guard in part_000's
   fetchImages (lines 84-86) throws a plain `Error('Images response is
   not an array')`; src/next.js's fetchImages (lines 82-85) returns the
   body with no check at all. ===== -/

/-- A parsed JS value (the body axios hands back). -/
inductive JsValue where
  | jsNull
  | jsBool (b : Bool)
  | jsNum (n : Int)
  | jsStr (s : String)
  | jsArr (items : List JsValue)
  | jsObj (fields : List (String × JsValue))

/-- What a GET /images attempt produces before fetchImages runs. -/
inductive ApiOutcome where
  | ok (body : JsValue)
  | netError (msg : String)

/-- The error a load can end with: an AxiosError from transport or
timeout, or a plain JS Error thrown inside fetchImages — two distinct
kinds (getApiError even branches on `instanceof AxiosError`). -/
inductive FetchErr where
  | axios (msg : String)
  | jsErr (msg : String)
deriving DecidableEq

/-- `Array.isArray`. -/
def isArr : JsValue → Bool
  | JsValue.jsArr _ => true
  | _ => false

/-- fetchImages of src/next.js (lines 82-85): return the body as-is. -/
def fetchImagesNext : ApiOutcome → Except FetchErr JsValue
  | ApiOutcome.netError m => Except.error (FetchErr.axios m)
  | ApiOutcome.ok body => Except.ok body

/-- fetchImages of part_000 (lines 79-89): throw a plain Error when the
body is not an array, otherwise return it (elements are not inspected). -/
def fetchImagesP0 : ApiOutcome → Except FetchErr JsValue
  | ApiOutcome.netError m => Except.error (FetchErr.axios m)
  | ApiOutcome.ok body =>
    if isArr body then Except.ok body
    else Except.error (FetchErr.jsErr "Images response is not an array")

/-- The retry option of part_000's imagesQuery (line 105):
`retry: (count) => count < 2`.  react-query passes the failure count and
the error; the lambda only binds the count, so the error — whatever its
kind — never influences the decision. -/
def retryImagesP0 (failureCount : Nat) (_e : FetchErr) : Bool :=
  failureCount < 2

/- ===== Helper lemmas used by the claim theorems. ===== -/

theorem runDeleteNext_failure_cache (id : Int) (items : List ImageItem) :
    (runDeleteNext id MutOutcome.failure (some items)).cache = some items := rfl

theorem runDeleteP0_failure_cache (id : Int) (items : List ImageItem) :
    (runDeleteP0 id MutOutcome.failure (some items)).cache = some items := rfl

/-- A concrete injective id oracle, standing in for the platform id
source in witnesses. -/
def genReplicate (n : Nat) : String := String.mk (List.replicate n 'a')

theorem genReplicate_injective : Function.Injective genReplicate := by
  intro a b h
  have hlen : (genReplicate a).length = (genReplicate b).length :=
    congrArg String.length h
  simpa [genReplicate, String.length_mk] using hlen

/-- A concrete image record for counterexample states. -/
def imgRec (n : Int) : ImageItem := { id := n, title := "t", url := "u" }

/- ===== The claims. ===== -/

/-- C1: for every delete(id) whose durable delete fails — indeed for any
sequence of failing deletes run to settlement — the items list after the
rollback equals, element for element and in order, the list captured
immediately before the optimistic removal; the removal is fully undone
in both variants.  (Stated on a defined cache entry `some items`, the
state in which an optimistic removal snapshots an items sequence.) -/
theorem C1_delete_failure_restores_snapshot (items : List ImageItem)
    (ids : List Int) :
    failingDeletesNext ids (some items) = some items ∧
    failingDeletesP0 ids (some items) = some items := by
  constructor
  · show List.foldl _ (some items) ids = some items
    induction ids with
    | nil => rfl
    | cons i tl ih =>
      show List.foldl _ ((runDeleteNext i MutOutcome.failure (some items)).cache) tl
        = some items
      rw [runDeleteNext_failure_cache]
      exact ih
  · show List.foldl _ (some items) ids = some items
    induction ids with
    | nil => rfl
    | cons i tl ih =>
      show List.foldl _ ((runDeleteP0 i MutOutcome.failure (some items)).cache) tl
        = some items
      rw [runDeleteP0_failure_cache]
      exact ih

/-- C2: every delete(id), whatever the durable outcome, triggers exactly
one refetch of the image list at settlement: onSettled invalidates the
images query unconditionally in both variants, and nothing else in the
mutation refetches. -/
theorem C2_settlement_refetches_once (id : Int) (outcome : MutOutcome)
    (cache0 : Option (List ImageItem)) :
    (runDeleteNext id outcome cache0).refetches = 1 ∧
    (runDeleteP0 id outcome cache0).refetches = 1 := by
  cases outcome <;> exact ⟨rfl, rfl⟩

/-- C3: after any nonempty sequence of mutations of one image's
annotation store (src/next.js), each of which completes a write-through
persist of the full set, deserializing the stored payload — the restart
simulation — returns a list value-equal to the in-memory state. -/
theorem C3_persistence_round_trip (gen : Nat → String) (op : AnnOp)
    (ops : List AnnOp) (s0 : AnnStore) :
    loadFor (applyOps gen (op :: ops) s0).stored =
      Except.ok (applyOps gen (op :: ops) s0).anns := by
  rw [applyOps_stored gen (op :: ops) s0 (by simp), loadFor_persistAnns]

/-- C4: the load path evaluated at the failing input.  An absent payload
correctly degrades to the empty sequence, but on the truncated stored
payload "[" JSON.parse throws and the load effect has no try/catch, so
the error escapes to the caller, where the claim requires an empty
sequence and no throw. -/
theorem C4_parse_failure_throws :
    loadFor none = Except.ok [] ∧
    loadFor (some "[") =
      Except.error "SyntaxError: Unexpected end of JSON input" :=
  ⟨rfl, rfl⟩

/-- C5 counterexample: responses that are not arrays of well-formed
ImageRecord values on which load does not fail with a validation error:
src/next.js's fetchImages returns a non-array object body untouched, and
part_000's fetchImages accepts an array whose element is a bare number. -/
theorem C5_counterexample_no_shape_validation :
    fetchImagesNext (ApiOutcome.ok (JsValue.jsObj [])) =
      Except.ok (JsValue.jsObj []) ∧
    fetchImagesP0 (ApiOutcome.ok (JsValue.jsArr [JsValue.jsNum 5])) =
      Except.ok (JsValue.jsArr [JsValue.jsNum 5]) :=
  ⟨rfl, rfl⟩

/-- C5 amended: part_000's fetchImages raises a validation error — a
plain JS Error, a kind distinct from the AxiosError transport kind —
exactly when the response body is not an array; array elements are never
shape-checked, and src/next.js's fetchImages returns any body without
validation. -/
theorem C5_amended_validation (body : JsValue) (m : String) :
    (isArr body = false →
      fetchImagesP0 (ApiOutcome.ok body) =
        Except.error (FetchErr.jsErr "Images response is not an array")) ∧
    (isArr body = true →
      fetchImagesP0 (ApiOutcome.ok body) = Except.ok body) ∧
    fetchImagesNext (ApiOutcome.ok body) = Except.ok body ∧
    fetchImagesP0 (ApiOutcome.netError m) = Except.error (FetchErr.axios m) ∧
    FetchErr.jsErr "Images response is not an array" ≠ FetchErr.axios m := by
  refine ⟨?_, ?_, rfl, rfl, fun hcon => FetchErr.noConfusion hcon⟩
  · intro h
    simp [fetchImagesP0, h]
  · intro h
    simp [fetchImagesP0, h]

/-- C5 amended, applied: a bare number body is rejected by part_000's
guard with the plain-Error kind. -/
theorem C5_amended_validation_witness :
    fetchImagesP0 (ApiOutcome.ok (JsValue.jsNum 0)) =
      Except.error (FetchErr.jsErr "Images response is not an array") :=
  (C5_amended_validation (JsValue.jsNum 0) "timeout of 8000ms exceeded").1 rfl

/-- C6 counterexample: part_000's retry predicate retries a validation
failure (the plain Error thrown for a non-array body) on the first
failure, where the claim forbids any retry of a validation failure. -/
theorem C6_counterexample_validation_retried :
    retryImagesP0 0 (FetchErr.jsErr "Images response is not an array") = true :=
  rfl

/-- C6 amended: part_000's load stops retrying after 2 attempts, but the
predicate `(count) => count < 2` inspects only the count: every failure
below the cap — validation failures included — is retried, and the
error's kind never changes the decision.  (src/next.js configures no
retry option at all; its behavior is the query library's default.) -/
theorem C6_amended_retry_cap (e : FetchErr) (n : Nat) :
    (2 ≤ n → retryImagesP0 n e = false) ∧
    (n < 2 → retryImagesP0 n e = true) ∧
    retryImagesP0 n e = retryImagesP0 n (FetchErr.axios "timeout") := by
  refine ⟨?_, ?_, rfl⟩
  · intro h
    simp only [retryImagesP0, decide_eq_false_iff_not]
    omega
  · intro h
    simp only [retryImagesP0, decide_eq_true_eq]
    omega

/-- C6 amended, applied at the cap and below it. -/
theorem C6_amended_retry_cap_witness :
    retryImagesP0 2 (FetchErr.axios "Network Error") = false ∧
    retryImagesP0 1 (FetchErr.jsErr "Images response is not an array") = true :=
  ⟨(C6_amended_retry_cap (FetchErr.axios "Network Error") 2).1 (by decide),
   (C6_amended_retry_cap (FetchErr.jsErr "Images response is not an array") 1).2.1
     (by decide)⟩

/-- C7: N adds on one image's store yield N annotations with pairwise
distinct ids, in both variants, provided the platform id source
(crypto.randomUUID in part_000, the Date.now-Math.random template string
in src/next.js) never repeats a draw over the process lifetime —
modelled as injectivity of the oracle. -/
theorem C7_unique_ids (gen : Nat → String) (hg : Function.Injective gen)
    (colors : List String) (N : Nat) :
    (addsNext gen colors annStoreInit).anns.length = colors.length ∧
    ((addsNext gen colors annStoreInit).anns.map Ann.id).Nodup ∧
    (addsP0 gen N).anns.length = N ∧
    ((addsP0 gen N).anns.map AnnP0.id).Nodup := by
  have hmap : (addsNext gen colors annStoreInit).anns.map Ann.id =
      (List.range' 0 colors.length).map gen := by
    simpa [annStoreInit] using addsNext_map_id gen colors annStoreInit
  refine ⟨?_, ?_, ?_, ?_⟩
  · have hl := congrArg List.length hmap
    simpa using hl
  · rw [hmap]
    exact (List.nodup_range' 0 colors.length).map hg
  · rw [addsP0_eq]
    simp
  · rw [addsP0_eq]
    simp only [List.map_map]
    exact (List.nodup_range N).map fun a b hab => hg hab

/-- C7 applied: three adds with a concrete injective id source give
three annotations with three distinct ids in both variants. -/
theorem C7_unique_ids_witness :
    (addsNext genReplicate ["#ff1744", "#2979ff", "#00c853"]
        annStoreInit).anns.length = 3 ∧
    ((addsNext genReplicate ["#ff1744", "#2979ff", "#00c853"]
        annStoreInit).anns.map Ann.id).Nodup ∧
    (addsP0 genReplicate 3).anns.length = 3 ∧
    ((addsP0 genReplicate 3).anns.map AnnP0.id).Nodup := by
  simpa using
    C7_unique_ids genReplicate genReplicate_injective
      ["#ff1744", "#2979ff", "#00c853"] 3

/-- C8 counterexample: in src/next.js two successive adds on an empty
set both place the annotation at (60, 60) — the second's x and y do not
differ from the first's by any nonzero fixed delta; they coincide. -/
theorem C8_counterexample_constant_geometry :
    (addsNext genReplicate ["#ff0000", "#00ff00"] annStoreInit).anns.map
      (fun a => (a.x, a.y)) = [((60 : Int), (60 : Int)), (60, 60)] := rfl

/-- C8 amended: the deterministic creation-order offset exists only in
part_000, whose k-th created annotation (0-based) sits at
(50 + 6(k+1), 50 + 6(k+1)) — successive annotations 6px apart in x and
y — while src/next.js assigns every annotation the constant position
(60, 60), so successive annotations there coincide. -/
theorem C8_amended_offsets (gen : Nat → String) (N : Nat)
    (colors : List String) :
    (addsP0 gen N).anns.map (fun a => (a.x, a.y)) =
      (List.range N).map
        (fun k : Nat => (((50 : Int) + ((k : Int) + 1) * 6),
                         ((50 : Int) + ((k : Int) + 1) * 6))) ∧
    (addsNext gen colors annStoreInit).anns.map (fun a => (a.x, a.y)) =
      colors.map (fun _ => ((60 : Int), (60 : Int))) := by
  constructor
  · rw [addsP0_eq]
    simp only [List.map_map]
    rfl
  · rw [addsNext_map_pos gen colors annStoreInit]
    simp [annStoreInit]

/-- C9 counterexample: with items [1,2,3], a second delete of id 2
issued while the first is unsettled is neither rejected nor queued — its
optimistic phase runs — and after both durable deletes fail and both
rollbacks run, the cache holds [1,3]: the item of a failed delete is
silently gone. -/
theorem C9_counterexample_interleaved_corruption :
    interleavedFailingDeletesNext 2 (some [imgRec 1, imgRec 2, imgRec 3]) =
      some [imgRec 1, imgRec 3] ∧
    some [imgRec 1, imgRec 3] ≠ some [imgRec 1, imgRec 2, imgRec 3] :=
  ⟨rfl, by decide⟩

/-- C9 amended: neither variant keys in-flight delete mutations by id,
so a second delete of the same id proceeds while the first is unsettled;
when both durable deletes then fail, the later rollback restores the
later snapshot, leaving the cache at the first optimistic filter — as if
the failed delete had committed — rather than at the pre-delete
sequence. -/
theorem C9_amended_no_guard (id : Int) (items : List ImageItem) :
    interleavedFailingDeletesNext id (some items) =
      some (items.filter fun i => i.id ≠ id) ∧
    interleavedFailingDeletesP0 id (some items) =
      some (items.filter fun i => i.id ≠ id) :=
  ⟨rfl, rfl⟩

/-- C10: move(id, nx, ny) keeps the list's length and order; the record
at every position is unchanged unless its id matches, and a matching
record changes only in x and y (id, width, height, color kept); when no
record carries the id the list is exactly unchanged (silent no-op). -/
theorem C10_move_frame (id : String) (nx ny : Int) (s : AnnStore) :
    (moveAnn id nx ny s).anns.length = s.anns.length ∧
    (∀ i : Nat, (moveAnn id nx ny s).anns[i]? =
      (s.anns[i]?).map fun p =>
        if p.id = id then { p with x := nx, y := ny } else p) ∧
    ((∀ a ∈ s.anns, a.id ≠ id) → (moveAnn id nx ny s).anns = s.anns) := by
  refine ⟨by simp [moveAnn], fun i => by simp [moveAnn], fun h => ?_⟩
  show s.anns.map _ = s.anns
  have hid : ∀ a ∈ s.anns,
      (if a.id = id then { a with x := nx, y := ny } else a) = a := by
    intro a ha
    rw [if_neg (h a ha)]
  calc s.anns.map _ = s.anns.map (fun a => a) := List.map_congr_left hid
  _ = s.anns := List.map_id' s.anns

/-- C10 applied: moving an id that is absent leaves a concrete store's
list unchanged. -/
theorem C10_move_frame_witness :
    (moveAnn "zzz" 1 2
      { anns := [{ id := "a1", x := 60, y := 60, width := 160, height := 100,
                   color := "#ff1744" }], nonce := 1, stored := none }).anns =
    [{ id := "a1", x := 60, y := 60, width := 160, height := 100,
       color := "#ff1744" }] :=
  (C10_move_frame "zzz" 1 2
    { anns := [{ id := "a1", x := 60, y := 60, width := 160, height := 100,
                 color := "#ff1744" }], nonce := 1, stored := none }).2.2
    (by decide)
